import Mathlib

/-!
# Verification of the `mota` OTA firmware updater

Shallow embedding of the Go sources (`device.go`, `util.go`, `api.go`,
`ota_updater.go`) of github.com/ruimarinho/mota, together with proofs of
the specification claims about them.

Conventions of the embedding:
* Go `int` values become `Int` (`strconv.Atoi` bounds are modelled
  explicitly); counters and sizes that are provably non-negative use `Nat`.
* Go maps become association lists (`List (key × value)`) with
  `List.lookup`; a map store becomes a cons (newest binding wins), which
  matches map-overwrite semantics.
* IPv4 addresses (`net.IP` 4-byte slices) are modelled as their 32-bit
  big-endian value (a `Nat < 2^32`); the byte-wise AND/OR/increment of the
  Go code become 32-bit AND/OR and `+1 mod 2^32`, which act independently
  on the four bytes exactly as the Go loops do.
* Network and filesystem effects are abstracted into an explicit
  environment record (`Env`); the control flow around them is translated
  from the source.

The file is organised as definitions first, then theorems.
-/

namespace Mota

/-! ## Version algebra (`device.go`)

`parseVersion` splits on `"."` (Go `strings.Split`) and converts each part
with `strconv.Atoi`.  `goAtoiChars` models `strconv.Atoi`: an optional
single sign, at least one ASCII digit, value within the `int64` range
(out of range makes `Atoi` return `ErrRange`, which `parseVersion` treats
as failure). -/

def isAsciiDigit (c : Char) : Bool :=
  '0' ≤ c && c ≤ '9'

def digitsToNat (cs : List Char) : Nat :=
  cs.foldl (fun acc c => acc * 10 + (c.toNat - '0'.toNat)) 0

/-- Split a character list at every occurrence of `sep`.  This is Go
`strings.Split` restricted to a one-character separator: the empty string
yields `[[]]`, and a trailing separator yields a trailing empty field. -/
def splitOnCharAux (sep : Char) : List Char → List Char → List (List Char)
  | [], acc => [acc.reverse]
  | c :: rest, acc =>
    if c = sep then acc.reverse :: splitOnCharAux sep rest []
    else splitOnCharAux sep rest (c :: acc)

def splitOnChar (sep : Char) (cs : List Char) : List (List Char) :=
  splitOnCharAux sep cs []

/-- Model of Go `strconv.Atoi`: optional single sign, at least one ASCII
digit, value within the `int64` range. -/
def goAtoiChars (cs : List Char) : Option Int :=
  let signed : Bool × List Char :=
    match cs with
    | '+' :: rest => (false, rest)
    | '-' :: rest => (true, rest)
    | _ => (false, cs)
  let neg := signed.1
  let ds := signed.2
  if ds.isEmpty then none
  else if ds.all isAsciiDigit then
    let v : Int := if neg then -(digitsToNat ds : Int) else (digitsToNat ds : Int)
    if -(2 ^ 63) ≤ v ∧ v ≤ 2 ^ 63 - 1 then some v else none
  else none

def goAtoi (s : String) : Option Int :=
  goAtoiChars s.toList

/-- `parseVersion` from `device.go`: requires exactly three dot-separated
components, each accepted by `strconv.Atoi`. -/
def parseVersion (v : String) : Option (Int × Int × Int) :=
  match splitOnChar '.' v.toList with
  | [a, b, c] =>
    match goAtoiChars a, goAtoiChars b, goAtoiChars c with
    | some x, some y, some z => some (x, y, z)
    | _, _, _ => none
  | _ => none

/-- `isVersionLessThan` from `device.go`. -/
def isVersionLessThan (a b : String) : Bool :=
  match parseVersion a, parseVersion b with
  | some (aMajor, aMinor, aPatch), some (bMajor, bMinor, bPatch) =>
    if aMajor ≠ bMajor then decide (aMajor < bMajor)
    else if aMinor ≠ bMinor then decide (aMinor < bMinor)
    else decide (aPatch < bPatch)
  | _, _ => false

/-- The strict lexicographic order on parsed (major, minor, patch)
triples, as the specification words it. -/
def versionLexLt (x y : Int × Int × Int) : Prop :=
  x.1 < y.1 ∨ (x.1 = y.1 ∧ (x.2.1 < y.2.1 ∨ (x.2.1 = y.2.1 ∧ x.2.2 < y.2.2)))

instance (x y : Int × Int × Int) : Decidable (versionLexLt x y) := by
  unfold versionLexLt; infer_instance

/-! ## Firmware descriptors and the stepping-stone policy (`api.go`, `device.go`) -/

/-- `RemoteFirmware` from `api.go`. -/
structure RemoteFirmware where
  model : String
  url : String
  version : String
  betaURL : String
  betaVersion : String
deriving DecidableEq, Repr, Inhabited

/-- The Go zero value `RemoteFirmware{}` (all fields empty). -/
def emptyRemoteFirmware : RemoteFirmware :=
  { model := "", url := "", version := "", betaURL := "", betaVersion := "" }

/-- `(*RemoteFirmware).StableID`: `"{model}-{version}@stable"`. -/
def RemoteFirmware.stableID (f : RemoteFirmware) : String :=
  f.model ++ "-" ++ f.version ++ "@stable"

/-- `(*RemoteFirmware).BetaID`: `"{model}-{betaVersion}@beta"`. -/
def RemoteFirmware.betaID (f : RemoteFirmware) : String :=
  f.model ++ "-" ++ f.betaVersion ++ "@beta"

def ssURL (cdnModel hash : String) : String :=
  "https://fwcdn.shelly.cloud/gen2/" ++ cdnModel ++ "/" ++ hash

def ssEntry (model cdnModel hash : String) : RemoteFirmware :=
  { model := model, url := ssURL cdnModel hash, version := "1.3.3",
    betaURL := "", betaVersion := "" }

/-- `steppingStone133` from `device.go`: Gen2+ models mapped to their
mandatory 1.3.3 firmware. -/
def steppingStone133 : List (String × RemoteFirmware) :=
  [("Plus1", ssEntry "Plus1" "Plus1"
      "ddd5a7b49ff3e65240d1264eb531f82da2aa86d3d05d045c5226a81e7ea2e43d"),
   ("Plus1PM", ssEntry "Plus1PM" "Plus1PM"
      "cc34adf8e45a3765b3f05efcd9a4322efd99c50c52ec9434fa51beb3b56217e1"),
   ("Plus1PMMini", ssEntry "Plus1PMMini" "Plus1PMMini"
      "72efef59bf19303ab32be3bc5e303e1fdf15cf6608698a73c5e3ffdbfa17e61e"),
   ("Plus2PM", ssEntry "Plus2PM" "Plus2PM"
      "eea874bcfee2b4876901948159b80bd9d2fc719300982f3ee489fa2168d400ea"),
   ("PlusI4", ssEntry "PlusI4" "PlusI4"
      "a341e6b3ab556ebfcc442311f65dc1e1c5fd01ec7e926617b8eb2589d0d00a8b"),
   ("PlusPlugS", ssEntry "PlusPlugS" "PlusPlugS"
      "b537c97799933584593641ea0f7ca7d3750b4020ce134d641953b92df5845220"),
   ("Mini1G3", ssEntry "Mini1G3" "Mini1G3"
      "ad6a38015d22503f95e4435d9a15342b7c721f30b4caf7e93f195428aa3b3ed0"),
   ("Mini1PMG3", ssEntry "Mini1PMG3" "Mini1PMG3"
      "ac3e0a3dcbf2809d0509b9b2335276fe76dcf51662df32a22677f64be58f4e54"),
   ("i4G3", ssEntry "i4G3" "I4G3"
      "cff09b114d5ff6980b1f4858cf80b9d37948371f64a4b4305ba3dc82507521d7"),
   ("1G3", ssEntry "1G3" "S1G3"
      "0021ac4946f8406df5f99e33d2fb2e37e4a5a5152f91dbbdcf5dd62d548b407d"),
   ("1PMG3", ssEntry "1PMG3" "S1PMG3"
      "0527974777080c85f3250c99f33ea3adff7da4ee02f03609b3fc03020ded9666")]

def steppingStoneVersion : String := "1.3.3"

/-- `Device` from `device.go` (the `net.IP` field is modelled as its
string form). -/
structure Device where
  firmwareNewestVersion : RemoteFirmware
  app : String
  firmwareVersion : String
  firmwareFilename : String
  generation : Int
  id : String
  ip : String
  model : String
  name : String
  password : String
  port : Int
  username : String
deriving DecidableEq, Repr

def defaultDevice : Device :=
  { firmwareNewestVersion := emptyRemoteFirmware, app := "", firmwareVersion := "",
    firmwareFilename := "", generation := 0, id := "", ip := "", model := "",
    name := "", password := "", port := 0, username := "" }

/-- `NeedsSteppingStone` from `device.go`: Gen2+ device with firmware
below 1.3.3 and a table entry for its model. -/
def needsSteppingStone (device : Device) : RemoteFirmware × Bool :=
  if device.generation < 2 then (emptyRemoteFirmware, false)
  else if ¬ isVersionLessThan device.firmwareVersion steppingStoneVersion then
    (emptyRemoteFirmware, false)
  else
    match steppingStone133.lookup device.model with
    | some fw => (fw, true)
    | none => (emptyRemoteFirmware, false)

/-- Modelled from the spec: `extractSemanticVersion` is called by
`ota_updater.go` but its definition is not among the provided sources.
Spec §4.2: "strips a date/build prefix up to the first `v` (optional) and
truncates on the first `-`, `@`, `+`, or whitespace, yielding a
`MAJOR.MINOR.PATCH` substring; returns `\x22\x22` if not extractable". -/
def extractSemanticVersion (raw : String) : String :=
  let cs := raw.toList
  let afterV := if cs.contains 'v' then (cs.dropWhile (fun c => c ≠ 'v')).drop 1 else cs
  let trunc := afterV.takeWhile (fun c => ¬(c = '-' ∨ c = '@' ∨ c = '+' ∨ c.isWhitespace))
  let s := String.mk trunc
  if (parseVersion s).isSome then s else ""

/-- A Gen2 `Plus1` device reporting a pre-release firmware string: its
extracted version is `1.0.0`, below the stepping-stone threshold, but the
raw string does not parse. -/
def betaFirmwareDevice : Device :=
  { defaultDevice with
      model := "Plus1", firmwareVersion := "1.0.0-beta1", generation := 2,
      id := "shellyplus1-aabbcc", ip := "192.168.1.100", port := 80 }

/-! ## CIDR expansion (`util.go`)

`net.IP` values produced by `net.ParseCIDR` for IPv4 CIDRs are 4-byte
arrays; we model them as their 32-bit big-endian numeric value.  The Go
byte-wise operations become 32-bit operations: `ip.Mask(m)` and
`IPNet.Contains` AND bytes (= 32-bit `&&&`), the broadcast computation
ORs bytes with the complemented mask (= 32-bit `|||` with
`2^32 - 1 - mask`), and `incrementIP` adds one with byte carry
(= `+1 mod 2^32`). -/

/-- The 32-bit value of `net.CIDRMask(p, 32)`: `p` leading one bits. -/
def cidrMask (p : Nat) : Nat := 2 ^ 32 - 2 ^ (32 - p)

/-- One octet of a dotted quad, as parsed by Go ≥ 1.17 `parseIPv4`:
decimal digits, value ≤ 255, no leading zero. -/
def parseOctet (cs : List Char) : Option Nat :=
  if cs.isEmpty then none
  else if ¬ cs.all isAsciiDigit then none
  else if 1 < cs.length ∧ cs.head? = some '0' then none
  else if digitsToNat cs ≤ 255 then some (digitsToNat cs) else none

/-- Go `parseIPv4`: exactly four dot-separated octets. -/
def parseIPv4 (cs : List Char) : Option Nat :=
  match splitOnChar '.' cs with
  | [a, b, c, d] =>
    match parseOctet a, parseOctet b, parseOctet c, parseOctet d with
    | some x, some y, some z, some w => some (((x * 256 + y) * 256 + z) * 256 + w)
    | _, _, _, _ => none
  | _ => none

/-- The prefix-length part of `net.ParseCIDR`: decimal digits (leading
zeros allowed, as in Go `dtoi`), value at most 32. -/
def parsePrefixLen (cs : List Char) : Option Nat :=
  if cs.isEmpty then none
  else if ¬ cs.all isAsciiDigit then none
  else if digitsToNat cs ≤ 32 then some (digitsToNat cs) else none

/-- `net.ParseCIDR` restricted to IPv4: `"a.b.c.d/p"`.  Returns the raw
address value and the prefix length (`ip.Mask(mask)` is computed by
`expandCIDR` below, as in the Go code it is the `ipNet.IP` field). -/
def parseCIDRv4 (s : String) : Option (Nat × Nat) :=
  match splitOnChar '/' s.toList with
  | [addr, maskStr] =>
    match parseIPv4 addr, parsePrefixLen maskStr with
    | some ip, some p => some (ip, p)
    | _, _ => none
  | _ => none

/-- The `for candidate := network; ipNet.Contains(candidate);
incrementIP(candidate)` loop of `ExpandCIDR`.  `fuel` only bounds the
iteration count; with fuel `2^32 + 1` the candidate value (the entire
loop state) must repeat before fuel runs out, so `none` holds exactly
when the Go loop never terminates. -/
def expandLoop (network broadcast mask : Nat) : Nat → Nat → Option (List Nat)
  | 0, _ => none
  | fuel + 1, candidate =>
    if candidate &&& mask = network then
      (expandLoop network broadcast mask fuel ((candidate + 1) % 2 ^ 32)).map
        (fun rest =>
          if candidate = network ∨ candidate = broadcast then rest else candidate :: rest)
    else some []

def loopFuel : Nat := 2 ^ 32 + 1

/-- `ExpandCIDR` from `util.go`.  The outer `Option` marks divergence of
the candidate loop (`none` = the Go code loops forever); `Except` carries
the parse-error case. -/
def expandCIDR (s : String) : Option (Except String (List Nat)) :=
  match parseCIDRv4 s with
  | none => some (Except.error "invalid CIDR address")
  | some (ip, p) =>
    let network := ip &&& cidrMask p
    let broadcast := network ||| (2 ^ 32 - 1 - cidrMask p)
    (expandLoop network broadcast (cidrMask p) loopFuel network).map Except.ok

/-! ## Catalog client (`api.go`)

The HTTP, filesystem and discovery effects are abstracted into an `Env`
record: `httpGet url` tells whether the GET of `url` succeeds with status
200 (directory creation, file creation and the body copy are assumed to
succeed), `remoteCatalog` is the merged catalog that the `FetchVersions`
fan-out would build when the in-memory cache is empty, `discoveries k`
is the device list returned by the `k`-th fresh discovery (the network
changes between passes as devices reboot), `globMatch` is
`filepath.Match`, and `chooseBeta`/`confirm` are the interactive prompt
answers, keyed by device ID. -/

structure Env where
  httpGet : String → Bool
  remoteCatalog : List (String × RemoteFirmware)
  discoveries : Nat → List Device
  globMatch : String → String → Bool
  chooseBeta : String → Bool
  confirm : String → Bool

/-- `gen2PlusAPINames` from `api.go`: app names whose update-API model
name differs. -/
def gen2PlusAPINames : List (String × String) :=
  [("1G3", "S1G3"), ("1PMG3", "S1PMG3"), ("2PMG3", "S2PMG3"), ("i4G3", "I4G3"),
   ("1G4", "S1G4"), ("1PMG4", "S1PMG4"), ("2PMG4", "S2PMG4"), ("i4G4", "I4G4")]

/-- `gen2PlusDeviceAliases` from `api.go`: device-reported variant names
mapped to the canonical internal name. -/
def gen2PlusDeviceAliases : List (String × String) :=
  [("S2PMG4ZB", "2PMG4")]

/-- The mutable state of `APIClient`: the memoized catalog
(`client.firmwares`) and the download cache (`client.firmwareCache`). -/
structure APIClient where
  firmwares : List (String × RemoteFirmware)
  firmwareCache : List (String × String)
deriving Repr

/-- `FetchVersions` from `api.go`: returns the cached catalog when
non-empty (the `len(client.firmwares) > 0` guard); otherwise performs the
Gen1 fetch and the bounded-concurrency Gen2+ fan-out, modelled as
`env.remoteCatalog`, and memoizes it. -/
def fetchVersions (env : Env) (c : APIClient) : APIClient × List (String × RemoteFirmware) :=
  if c.firmwares.length > 0 then (c, c.firmwares)
  else ({ c with firmwares := env.remoteCatalog }, env.remoteCatalog)

/-- The reverse lookup loop of `GetLatestFirmwareAvailable`: find an
internal name whose API name equals `model` and that has a catalog
entry. -/
def lookupByAPIName (firmwares : List (String × RemoteFirmware)) (model : String) :
    List (String × String) → Option RemoteFirmware
  | [] => none
  | (internal, api) :: rest =>
    if api = model then
      match firmwares.lookup internal with
      | some firmware => some firmware
      | none => lookupByAPIName firmwares model rest
    else lookupByAPIName firmwares model rest

/-- The lookup chain of `GetLatestFirmwareAvailable` on a fetched
catalog: direct entry, then device alias, then reverse API name, else a
firmware-not-found error. -/
def getLatestFirmwareFrom (firmwares : List (String × RemoteFirmware)) (model : String) :
    Except String RemoteFirmware :=
  match firmwares.lookup model with
  | some firmware => Except.ok firmware
  | none =>
    match gen2PlusDeviceAliases.lookup model with
    | some canonical =>
      match firmwares.lookup canonical with
      | some firmware => Except.ok firmware
      | none =>
        match lookupByAPIName firmwares model gen2PlusAPINames with
        | some firmware => Except.ok firmware
        | none => Except.error ("remote firmware for model " ++ model ++ " not found")
    | none =>
      match lookupByAPIName firmwares model gen2PlusAPINames with
      | some firmware => Except.ok firmware
      | none => Except.error ("remote firmware for model " ++ model ++ " not found")

/-- `GetLatestFirmwareAvailable` from `api.go`. -/
def getLatestFirmwareAvailable (env : Env) (c : APIClient) (model : String) :
    APIClient × Except String RemoteFirmware :=
  let fetched := fetchVersions env c
  (fetched.1, getLatestFirmwareFrom fetched.2 model)

/-- Go `path.Ext`: the suffix beginning at the final dot of the final
slash-separated element; empty when there is no dot. -/
def goPathExt (s : String) : String :=
  let rev := s.toList.reverse
  let lastElem := rev.takeWhile (fun c => c ≠ '/')
  if lastElem.contains '.' then
    String.mk ((lastElem.takeWhile (fun c => c ≠ '.') ++ ['.']).reverse)
  else ""

/-- `strings.Replace(s, "/", "-", -1)`. -/
def replaceSlashes (s : String) : String :=
  String.mk (s.toList.map (fun c => if c = '/' then '-' else c))

/-- `filepath.Join(dir, filename)` for an already-clean `dir` (the
path-cleaning of `filepath.Join` is not modelled). -/
def joinPath (dir filename : String) : String :=
  dir ++ "/" ++ filename

/-- The `id` local of `DownloadFirmware`: stable ID, replaced by the beta
ID when the beta channel is requested. -/
def firmwareID (f : RemoteFirmware) (betaVersion : Bool) : String :=
  if betaVersion then f.betaID else f.stableID

/-- The `url` local of `DownloadFirmware`. -/
def firmwareURL (f : RemoteFirmware) (betaVersion : Bool) : String :=
  if betaVersion then f.betaURL else f.url

/-- The `version` local of `DownloadFirmware`. -/
def firmwareVersionChosen (f : RemoteFirmware) (betaVersion : Bool) : String :=
  if betaVersion then f.betaVersion else f.version

/-- The `extension` local of `DownloadFirmware`: `path.Ext(url)`,
defaulting to `.zip`. -/
def extensionOf (url : String) : String :=
  if goPathExt url = "" then ".zip" else goPathExt url

/-- The `filename` local of `DownloadFirmware`:
`strings.Replace(strings.Join([]string{model, version, extension}, ""), "/", "-", -1)`. -/
def downloadFilename (f : RemoteFirmware) (betaVersion : Bool) : String :=
  replaceSlashes (f.model ++ firmwareVersionChosen f betaVersion
    ++ extensionOf (firmwareURL f betaVersion))

/-- `DownloadFirmware` from `api.go`.  Returns the new client state, the
result (local path or error), and the number of HTTP GETs performed by
this call.  A cache hit returns the stored path before any network or
filesystem activity; a miss GETs the URL, writes the file under
`downloadDir` and records the path under the firmware ID. -/
def downloadFirmware (env : Env) (c : APIClient) (remoteFirmware : RemoteFirmware)
    (betaVersion : Bool) (downloadDir : String) :
    APIClient × Except String String × Nat :=
  match c.firmwareCache.lookup (firmwareID remoteFirmware betaVersion) with
  | some localPath => (c, Except.ok localPath, 0)
  | none =>
    if env.httpGet (firmwareURL remoteFirmware betaVersion) then
      let fullPath := joinPath downloadDir (downloadFilename remoteFirmware betaVersion)
      ({ c with firmwareCache :=
          (firmwareID remoteFirmware betaVersion, fullPath) :: c.firmwareCache },
       Except.ok fullPath, 1)
    else
      (c, Except.error ("failed to download firmware from "
        ++ firmwareURL remoteFirmware betaVersion), 1)

/-- `N` successive calls of `DownloadFirmware` with the same arguments:
final client state, the list of results, and the total GET count. -/
def downloadCalls (env : Env) (fw : RemoteFirmware) (betaVersion : Bool) (dir : String) :
    Nat → APIClient → APIClient × List (Except String String) × Nat
  | 0, c => (c, [], 0)
  | n + 1, c =>
    let first := downloadFirmware env c fw betaVersion dir
    let rest := downloadCalls env fw betaVersion dir n first.1
    (rest.1, first.2.1 :: rest.2.1, first.2.2 + rest.2.2)

/-! ## The OTA server router (`ota_updater.go`, `Setup`)

The root handler reads `deviceID := r.URL.Path[1:]` (the request path
with its first character removed), looks it up in the per-device handler
map, invokes the stored handler on a hit and replies 404 on a miss.  A
handler is modelled by the filename it serves (`UpgradeDevice` installs
a handler that serves one local file).  `http.ServeMux` guarantees the
dispatched path is non-empty and starts with `/`. -/

inductive RouterResult where
  | served (filename : String)
  | notFound
deriving DecidableEq, Repr

/-- The router installed by `Setup`. -/
def routerRespond (deviceHandlers : List (String × String)) (path : String) : RouterResult :=
  let deviceID := String.mk (path.toList.drop 1)
  match deviceHandlers.lookup deviceID with
  | some handler => RouterResult.served handler
  | none => RouterResult.notFound

/-- The last slash-separated segment of a path, as the specification
words it. -/
def lastSegment (path : String) : String :=
  String.mk ((splitOnChar '/' path.toList).getLastD [])

/-! ## The orchestrator (`ota_updater.go`)

`OTAService` keeps the fields the upgrade loop reads and writes: the API
client state, the discovery cache (`o.devices`, `none` when cleared), and
the configuration.  `discoverCount` is a model artifact: it indexes
`env.discoveries`, so that each *fresh* discovery can observe a different
network state (devices reboot between passes); it increments exactly when
a real discovery happens.  Interactive prompts are answered by
`env.confirm`/`env.chooseBeta`; the interrupt path of `survey.AskOne` is
not modelled. -/

/-- `shellies` from `device.go`: model code to human-friendly name. -/
def shellies : List (String × String) :=
  [("0-10VDimmerG3", "Shelly 0-10V Dimmer Gen3"), ("1G3", "Shelly 1 Gen3"),
   ("1G4", "Shelly 1 Gen4"), ("1MiniG3", "Shelly 1 Mini Gen3"),
   ("1MiniG4", "Shelly 1 Mini Gen4"), ("1PMG3", "Shelly 1 PM Gen3"),
   ("1PMG4", "Shelly 1 PM Gen4"), ("1PMMiniG3", "Shelly 1 PM Mini Gen3"),
   ("2PMG3", "Shelly 2 PM Gen3"), ("2PMG4", "Shelly 2 PM Gen4"),
   ("4Pro", "Shelly 4Pro"), ("DimmerG3", "Shelly Dimmer Gen3"),
   ("DimmerG4", "Shelly Dimmer Gen4"), ("EMMiniG4", "Shelly EM Mini Gen4"),
   ("EMXG3", "Shelly EM X Gen3"), ("FloodG3", "Shelly Flood Gen3"),
   ("FloodG4", "Shelly Flood Gen4"), ("HTG3", "Shelly H&T Gen3"),
   ("IR_REM-0", "Shelly Remote"), ("IR_REM-1-remote", "Shelly Remote"),
   ("Mini1G3", "Shelly Mini 1 Gen3"), ("Mini1PMG3", "Shelly Mini 1 PM Gen3"),
   ("MiniPMG3", "Shelly Mini PM Gen3"), ("PlugSG3", "Shelly Plug S Gen3"),
   ("PlugSG4", "Shelly Plug S Gen4"), ("PlugUS", "Shelly Plus Plug US"),
   ("Plus1", "Shelly Plus 1"), ("Plus10V", "Shelly Plus 0-10V Dimmer"),
   ("Plus1Mini", "Shelly Plus 1 Mini"), ("Plus1PM", "Shelly Plus 1"),
   ("Plus1PMMini", "Shelly Plus 1 PM Mini"), ("Plus2", "Shelly Plus 2"),
   ("Plus2PM", "Shelly Plus 2 PM"), ("PlusHT", "Shelly Plus H&T"),
   ("PlusI4", "Shelly Plus I4"), ("PlusPlugIT", "Shelly Plus Plug IT"),
   ("PlusPlugS", "Shelly Plus Plug S"), ("PlusPlugUK", "Shelly Plus Plug UK"),
   ("PlusPMMini", "Shelly Plus PM Mini"), ("PlusWallDimmer", "Shelly Plus Wall Dimmer"),
   ("Pro1", "Shelly Pro 1"), ("Pro1PM", "Shelly Pro 1 PM"),
   ("Pro2", "Shelly Pro 2"), ("Pro2PM", "Shelly Pro 2 PM"),
   ("Pro3", "Shelly Pro 3"), ("Pro3EM", "Shelly Pro 3 EM"),
   ("Pro4PM", "Shelly Pro 4 PM"), ("RGBWPMminiG3", "Shelly RGBW PM Mini Gen3"),
   ("i4G3", "Shelly i4 Gen3"), ("i4G4", "Shelly i4 Gen4"),
   ("SH2LED-1", "Shelly 2LED"), ("SHAIR-1", "Shelly Air"),
   ("SHAIR-2", "Shelly Air Turbo"), ("SHBDUO-1", "Shelly Duo"),
   ("SHBLB-1", "Shelly Bulb"), ("SHBTN-1", "Shelly Button"),
   ("SHBTN-2", "Shelly Button"), ("SHCB-1", "Shelly Color Bulb"),
   ("SHCL-255", "Shelly Bulb"), ("SHDIMW-1", "Shelly Dimmer"),
   ("SHDM-1", "Shelly Dimmer"), ("SHDM-2", "Shelly Dimmer 2"),
   ("SHDW-1", "Shelly Door"), ("SHDW-2", "Shelly Door 2"),
   ("SHEM-1", "Shelly EM"), ("SHEM-3", "Shelly EM3"),
   ("SHEM", "Shelly EM"), ("SHGS-1", "Shelly Gas"),
   ("SHHT-1", "Shelly T&H"), ("SHIX3-1", "Shelly i3"),
   ("SHMOS-01", "Shelly Motion Sensor"), ("SHMOS-02", "Shelly Motion 2"),
   ("SHPLG-1", "Shelly Plug"), ("SHPLG-AU1", "Shelly Plug AU"),
   ("SHPLG-IT1", "Shelly Plug IT"), ("SHPLG-S", "Shelly Plug S"),
   ("SHPLG-U1", "Shelly Plug US"), ("SHPLG-UK1", "Shelly Plug UK"),
   ("SHPLG2-1", "Shelly Plug"), ("SHRGBW2", "Shelly RGBW 2"),
   ("SHRGBWW-01", "Shelly RGBWW"), ("SHSEN-1", "Shelly Sense"),
   ("SHSK-1", "Shelly Socket"), ("SHSM-01", "Shelly Smoke"),
   ("SHSPOT-1", "Shelly Spot"), ("SHSPOT-2", "Shelly Spot 2"),
   ("SHSW-1", "Shelly 1"), ("SHSW-1S", "Shelly Harvia RSS"),
   ("SHSW-21", "Shelly 2"), ("SHSW-22", "Shelly HDPro"),
   ("SHSW-25", "Shelly 25"), ("SHSW-44", "Shelly 4Pro"),
   ("SHSW-L", "Shelly 1L"), ("SHSW-PM", "Shelly 1 PM"),
   ("SHTRV-01", "Shelly TRV"), ("SHUNI-1", "Shelly Uni"),
   ("SHVIN-1", "Shelly Vintage"), ("SHWT-1", "Shelly Flood"),
   ("SNDM-9995WW", "Shelly Plus Dimmer")]

/-- `(*Device).FamilyFriendlyName` from `device.go`. -/
def familyFriendlyName (d : Device) : String :=
  let v := (shellies.lookup d.model).getD ""
  if d.model ≠ "" ∧ v ≠ "" then v else d.model

/-- `(*Device).String` from `device.go`:
`"{name-or-friendly} ({id}@{ip}:{port})"`. -/
def deviceString (d : Device) : String :=
  if d.name = "" then
    familyFriendlyName d ++ " (" ++ d.id ++ "@" ++ d.ip ++ ":" ++ toString d.port ++ ")"
  else
    d.name ++ " (" ++ d.id ++ "@" ++ d.ip ++ ":" ++ toString d.port ++ ")"

/-- `containsString` from `ota_updater.go`. -/
def containsString (haystack : List String) (needle : String) : Bool :=
  haystack.any (fun s => s = needle)

/-- `matchesAnyPattern` from `ota_updater.go` (`filepath.Match` is Go
standard library; it is abstracted as `env.globMatch`). -/
def matchesAnyPattern (env : Env) (patterns : List String) (name : String) : Bool :=
  patterns.any (fun pattern => env.globMatch pattern name)

/-- The mutable state of `OTAService` read and written by the upgrade
loop, plus its configuration. -/
structure OTAService where
  api : APIClient
  devices : Option (List (String × Device))
  downloadDir : String
  force : Bool
  includeBetas : Bool
  modelFilter : List String
  excludePatterns : List String
  discoverCount : Nat
deriving Repr

/-- `DiscoverDevices` from `ota_updater.go`: returns the cached device
index if present; otherwise runs discovery
(`browser.ListenForAnnouncements`, modelled by `env.discoveries` at the
current discovery index) and caches the devices keyed by ID. -/
def discoverDevices (env : Env) (o : OTAService) : OTAService × List (String × Device) :=
  match o.devices with
  | some ds => (o, ds)
  | none =>
    let ds := (env.discoveries o.discoverCount).map (fun d => (d.id, d))
    ({ o with devices := some ds, discoverCount := o.discoverCount + 1 }, ds)

/-- `ResetDiscovery` from `ota_updater.go`: clears the cached device
list (and nothing else). -/
def resetDiscovery (o : OTAService) : OTAService :=
  { o with devices := none }

/-- The per-device body of `refreshFirmwareTargets` (the same logic as
the target-detection loop of `Setup`): resolve the latest firmware for
the model (skipping the device on a catalog miss), assign the
stepping-stone target when required, otherwise assign the remote
firmware when the extracted device version is below it (or below the
beta when beta mode is on). -/
def refreshDevice (env : Env) (includeBetas : Bool) (api : APIClient) (d : Device) :
    APIClient × Device :=
  match getLatestFirmwareAvailable env api d.model with
  | (api2, Except.error _) => (api2, d)
  | (api2, Except.ok remoteFirmware) =>
    match needsSteppingStone d with
    | (steppingStone, true) => (api2, { d with firmwareNewestVersion := steppingStone })
    | (_, false) =>
      let deviceVersion := extractSemanticVersion d.firmwareVersion
      let remoteVersion := extractSemanticVersion remoteFirmware.version
      let remoteBetaVersion := extractSemanticVersion remoteFirmware.betaVersion
      if isVersionLessThan deviceVersion remoteVersion = true
          ∨ (includeBetas = true ∧ remoteBetaVersion ≠ ""
             ∧ isVersionLessThan deviceVersion remoteBetaVersion = true) then
        (api2, { d with firmwareNewestVersion := remoteFirmware })
      else (api2, d)

def refreshDevicesList (env : Env) (includeBetas : Bool) :
    List (String × Device) → APIClient → APIClient × List (String × Device)
  | [], api => (api, [])
  | (id, d) :: rest, api =>
    let r1 := refreshDevice env includeBetas api d
    let r2 := refreshDevicesList env includeBetas rest r1.1
    (r2.1, (id, r1.2) :: r2.2)

/-- `refreshFirmwareTargets` from `ota_updater.go`: re-discovers devices
(fresh, because `ResetDiscovery` ran first in the loop) and re-evaluates
every device's target firmware in place. -/
def refreshFirmwareTargets (env : Env) (o : OTAService) : OTAService :=
  let disc := discoverDevices env o
  let refreshed := refreshDevicesList env disc.1.includeBetas disc.2 disc.1.api
  { disc.1 with api := refreshed.1, devices := some refreshed.2 }

/-- The keep-condition of `FilterDevices`: the device survives when the
model filter is empty or contains its model, and no exclude pattern
matches its string form, name or ID. -/
def keepDevice (env : Env) (modelFilter excludePatterns : List String) (device : Device) :
    Bool :=
  (decide (modelFilter.length = 0) || containsString modelFilter device.model)
  && !(matchesAnyPattern env excludePatterns (deviceString device)
       || matchesAnyPattern env excludePatterns device.name
       || matchesAnyPattern env excludePatterns device.id)

/-- `FilterDevices` from `ota_updater.go`: a no-op when no filter is
configured; otherwise drops non-matching devices from the index. -/
def filterDevices (env : Env) (o : OTAService) : OTAService :=
  if o.modelFilter.length = 0 ∧ o.excludePatterns.length = 0 then o
  else
    { o with devices := o.devices.map (fun ds =>
        ds.filter (fun entry => keepDevice env o.modelFilter o.excludePatterns entry.2)) }

/-- The per-device body of `upgradePass`: skip devices whose target is
the empty descriptor; choose the channel (forced or prompted); skip when
the user declines; download the target firmware (a download error aborts
the pass); record whether a stepping-stone target was upgraded.  The
spawned `UpgradeDevice` HTTP exchange does not touch the loop state. -/
def upgradePassDevice (env : Env) (force includeBetas : Bool) (downloadDir : String)
    (api : APIClient) (hadSteppingStone : Bool) (device : Device) :
    Except String (APIClient × Bool) :=
  if device.firmwareNewestVersion = emptyRemoteFirmware then
    Except.ok (api, hadSteppingStone)
  else
    let isBeta :=
      if force then includeBetas
      else
        let chosenUpdate :=
          if includeBetas && env.chooseBeta device.id then
            device.firmwareNewestVersion.betaVersion
          else device.firmwareNewestVersion.version
        chosenUpdate == device.firmwareNewestVersion.betaVersion
    if !force && !env.confirm device.id then Except.ok (api, hadSteppingStone)
    else
      let dl := downloadFirmware env api device.firmwareNewestVersion isBeta downloadDir
      match dl.2.1 with
      | Except.error _ => Except.error "error downloading firmware"
      | Except.ok _ => Except.ok (dl.1, hadSteppingStone || (needsSteppingStone device).2)

def upgradeDevices (env : Env) (force includeBetas : Bool) (downloadDir : String) :
    List (String × Device) → APIClient → Bool → Except String (APIClient × Bool)
  | [], api, had => Except.ok (api, had)
  | (_, d) :: rest, api, had =>
    match upgradePassDevice env force includeBetas downloadDir api had d with
    | Except.error e => Except.error e
    | Except.ok r => upgradeDevices env force includeBetas downloadDir rest r.1 r.2

/-- `upgradePass` from `ota_updater.go`: one round of upgrades over the
(possibly cached) device index; returns whether any upgraded device used
a stepping-stone target. -/
def upgradePass (env : Env) (o : OTAService) : Except String (OTAService × Bool) :=
  let disc := discoverDevices env o
  match upgradeDevices env disc.1.force disc.1.includeBetas disc.1.downloadDir
      disc.2 disc.1.api false with
  | Except.error e => Except.error e
  | Except.ok r => Except.ok ({ disc.1 with api := r.1 }, r.2)

/-- `PromptForUpgrades` from `ota_updater.go`: run passes until a pass
performs no stepping-stone upgrade; between passes, reset discovery,
refresh the firmware targets and re-apply the filters.  The loop is
unbounded in Go; `fuel` bounds the model, `none` meaning the bound was
hit. -/
def promptForUpgrades (env : Env) : Nat → OTAService → Option (Except String OTAService)
  | 0, _ => none
  | fuel + 1, o =>
    match upgradePass env o with
    | Except.error e => some (Except.error e)
    | Except.ok r =>
      if r.2 then
        promptForUpgrades env fuel
          (filterDevices env (refreshFirmwareTargets env (resetDiscovery r.1)))
      else some (Except.ok r.1)

/-- The catalog held by the client when the multi-pass run starts. -/
def c1CatalogOld : List (String × RemoteFirmware) :=
  [("Plus1", { model := "Plus1", url := "http://fw.example/Plus1-150.zip",
               version := "1.5.0", betaURL := "", betaVersion := "" })]

/-- A different catalog that a fresh `FetchVersions` would produce: if
the catalog cache were cleared between passes, the next pass would see
version 1.6.0. -/
def c1CatalogNew : List (String × RemoteFirmware) :=
  [("Plus1", { model := "Plus1", url := "http://fw.example/Plus1-160.zip",
               version := "1.6.0", betaURL := "", betaVersion := "" })]

/-- A `Plus1` on firmware 1.0.0 whose target (assigned by `Setup`) is the
stepping-stone 1.3.3 firmware. -/
def c1Device : Device :=
  { defaultDevice with
      id := "shellyplus1-aabbcc", model := "Plus1", generation := 2,
      firmwareVersion := "1.0.0",
      firmwareNewestVersion := ssEntry "Plus1" "Plus1"
        "ddd5a7b49ff3e65240d1264eb531f82da2aa86d3d05d045c5226a81e7ea2e43d" }

/-- The same device as re-discovered after the stepping-stone pass:
rebooted on 1.3.3, no target assigned yet. -/
def c1DeviceAfter : Device :=
  { c1Device with firmwareVersion := "1.3.3", firmwareNewestVersion := emptyRemoteFirmware }

def c1Env : Env :=
  { httpGet := fun _ => true,
    remoteCatalog := c1CatalogNew,
    discoveries := fun _ => [c1DeviceAfter],
    globMatch := fun _ _ => false,
    chooseBeta := fun _ => false,
    confirm := fun _ => true }

/-- The orchestrator state at the start of `PromptForUpgrades`: `Setup`
has discovered `c1Device`, fetched `c1CatalogOld` and assigned the
stepping-stone target; `--force` is set. -/
def c1State : OTAService :=
  { api := { firmwares := c1CatalogOld, firmwareCache := [] },
    devices := some [("shellyplus1-aabbcc", c1Device)],
    downloadDir := "dl", force := true, includeBetas := false,
    modelFilter := [], excludePatterns := [], discoverCount := 1 }

/-- The state after the first (stepping-stone) pass of `c1State`. -/
def c1AfterPass : OTAService :=
  match upgradePass c1Env c1State with
  | Except.ok r => r.1
  | Except.error _ => c1State

/-! # Theorems -/

/-! ## C5, C6: version comparison -/

/-- The boolean comparison agrees with the lexicographic order on the
parsed triples. -/
theorem isVersionLessThan_eq_lex (a b : String) (x y : Int × Int × Int)
    (ha : parseVersion a = some x) (hb : parseVersion b = some y) :
    isVersionLessThan a b = true ↔ versionLexLt x y := by
  obtain ⟨xM, xm, xp⟩ := x
  obtain ⟨yM, ym, yp⟩ := y
  unfold isVersionLessThan versionLexLt
  rw [ha, hb]
  dsimp only
  split_ifs with h1 h2 <;> simp only [decide_eq_true_eq] <;> omega

/-- **C5.** `isVersionLessThan(a, b)` returns `false` whenever either
string fails to parse as exactly three dot-separated decimal components,
and otherwise returns the strict lexicographic integer comparison of the
(major, minor, patch) triples. -/
theorem C5_isVersionLessThan_parse_and_lex (a b : String) :
    ((parseVersion a = none ∨ parseVersion b = none) → isVersionLessThan a b = false)
    ∧ (∀ x y, parseVersion a = some x → parseVersion b = some y →
        (isVersionLessThan a b = true ↔ versionLexLt x y)) := by
  constructor
  · intro h
    unfold isVersionLessThan
    rcases h with h | h
    · rw [h]
    · rw [h]
      cases hpa : parseVersion a with
      | none => rfl
      | some x => obtain ⟨xM, xm, xp⟩ := x; rfl
  · intro x y ha hb
    exact isVersionLessThan_eq_lex a b x y ha hb

/-- **C5 witness.** -/
theorem C5_isVersionLessThan_parse_and_lex_witness :
    isVersionLessThan "invalid" "1.3.3" = false
    ∧ (isVersionLessThan "1.0.0" "1.3.3" = true ↔ versionLexLt (1, 0, 0) (1, 3, 3)) :=
  ⟨(C5_isVersionLessThan_parse_and_lex "invalid" "1.3.3").1 (Or.inl (by decide)),
   (C5_isVersionLessThan_parse_and_lex "1.0.0" "1.3.3").2 (1, 0, 0) (1, 3, 3)
     (by decide) (by decide)⟩

/-- **C6.** `isVersionLessThan` is irreflexive, and for strings that both
parse it is antisymmetric. -/
theorem C6_isVersionLessThan_irrefl_antisymm (a b : String) :
    isVersionLessThan a a = false
    ∧ ((parseVersion a).isSome → (parseVersion b).isSome →
        ¬(isVersionLessThan a b = true ∧ isVersionLessThan b a = true)) := by
  constructor
  · unfold isVersionLessThan
    cases h : parseVersion a with
    | none => rfl
    | some x => obtain ⟨xM, xm, xp⟩ := x; simp
  · intro ha hb ⟨hab, hba⟩
    obtain ⟨x, hx⟩ := Option.isSome_iff_exists.mp ha
    obtain ⟨y, hy⟩ := Option.isSome_iff_exists.mp hb
    have h1 := (isVersionLessThan_eq_lex a b x y hx hy).mp hab
    have h2 := (isVersionLessThan_eq_lex b a y x hy hx).mp hba
    obtain ⟨xM, xm, xp⟩ := x
    obtain ⟨yM, ym, yp⟩ := y
    unfold versionLexLt at h1 h2
    simp only at h1 h2
    omega

/-- **C6 witness.** -/
theorem C6_isVersionLessThan_irrefl_antisymm_witness :
    isVersionLessThan "1.3.3" "1.3.3" = false
    ∧ ¬(isVersionLessThan "1.0.0" "1.3.3" = true ∧ isVersionLessThan "1.3.3" "1.0.0" = true) :=
  ⟨(C6_isVersionLessThan_irrefl_antisymm "1.3.3" "1.0.0").1,
   (C6_isVersionLessThan_irrefl_antisymm "1.0.0" "1.3.3").2 (by decide) (by decide)⟩

/-! ## C2: the stepping-stone predicate -/

/-- **C2 counterexample.** `betaFirmwareDevice` has generation 2, its
extracted numeric version `1.0.0` is strictly below `1.3.3`, and its
model has a stepping-stone entry, yet `NeedsSteppingStone` returns the
empty descriptor and `false`, because the code compares the raw firmware
string (which fails to parse) rather than the extracted version. -/
theorem C2_needsSteppingStone_counterexample :
    2 ≤ betaFirmwareDevice.generation
    ∧ extractSemanticVersion betaFirmwareDevice.firmwareVersion = "1.0.0"
    ∧ isVersionLessThan (extractSemanticVersion betaFirmwareDevice.firmwareVersion)
        steppingStoneVersion = true
    ∧ (steppingStone133.lookup betaFirmwareDevice.model).isSome = true
    ∧ needsSteppingStone betaFirmwareDevice = (emptyRemoteFirmware, false) := by
  refine ⟨by decide, by decide, by decide, by decide, by decide⟩

/-- Characterization of `NeedsSteppingStone` as a single guard followed
by the table lookup. -/
theorem needsSteppingStone_eq (d : Device) :
    needsSteppingStone d =
      if (2 ≤ d.generation ∧ isVersionLessThan d.firmwareVersion steppingStoneVersion = true) then
        (match steppingStone133.lookup d.model with
         | some fw => (fw, true)
         | none => (emptyRemoteFirmware, false))
      else (emptyRemoteFirmware, false) := by
  unfold needsSteppingStone
  by_cases h1 : d.generation < 2
  · rw [if_pos h1, if_neg]
    rintro ⟨hg, _⟩
    omega
  · rw [if_neg h1]
    by_cases h2 : isVersionLessThan d.firmwareVersion steppingStoneVersion = true
    · rw [if_neg (by simp [h2]), if_pos ⟨by omega, h2⟩]
    · rw [if_pos (by simpa using h2), if_neg]
      rintro ⟨_, hv⟩
      exact h2 hv

/-- **C2 (amended).** `NeedsSteppingStone(d)` returns `(fw, true)` iff
`d.generation ≥ 2`, the *raw* firmware string of `d` (no extraction
applied) is strictly below `1.3.3` under `isVersionLessThan`, and
`d.model` has an entry in the stepping-stone table; the returned
descriptor is then that table entry.  In all other cases it returns the
empty descriptor and `false`; in particular for every generation-1
device. -/
theorem C2_needsSteppingStone_raw_version (d : Device) :
    ((needsSteppingStone d).2 = true ↔
      (2 ≤ d.generation
        ∧ isVersionLessThan d.firmwareVersion steppingStoneVersion = true
        ∧ (steppingStone133.lookup d.model).isSome))
    ∧ (∀ fw, steppingStone133.lookup d.model = some fw →
        (needsSteppingStone d).2 = true → (needsSteppingStone d).1 = fw)
    ∧ ((needsSteppingStone d).2 = false → (needsSteppingStone d).1 = emptyRemoteFirmware)
    ∧ (d.generation = 1 → needsSteppingStone d = (emptyRemoteFirmware, false)) := by
  rw [needsSteppingStone_eq]
  by_cases hc : (2 ≤ d.generation ∧ isVersionLessThan d.firmwareVersion steppingStoneVersion = true)
  · rw [if_pos hc]
    cases hl : steppingStone133.lookup d.model with
    | none =>
      refine ⟨by simp [hc], ?_, fun _ => rfl, fun hg => by omega⟩
      intro fw hfw
      exact absurd hfw (by simp)
    | some fw =>
      refine ⟨by simp [hc], ?_, by simp, fun hg => by omega⟩
      intro fw' hfw' _
      simpa using hfw'
  · rw [if_neg hc]
    refine ⟨?_, fun fw hfw h => by simp at h, fun _ => rfl, fun _ => rfl⟩
    simp only [Bool.false_eq_true, false_iff]
    rintro ⟨h1, h2, _⟩
    exact hc ⟨h1, h2⟩

/-- **C2 (amended) witness.** -/
theorem C2_needsSteppingStone_raw_version_witness :
    ((needsSteppingStone { defaultDevice with
        model := "Plus1", firmwareVersion := "1.0.0", generation := 2 }).2 = true)
    ∧ needsSteppingStone { defaultDevice with
        model := "SHSW-25", firmwareVersion := "1.0.0", generation := 1 }
        = (emptyRemoteFirmware, false) :=
  ⟨(C2_needsSteppingStone_raw_version _).1.mpr ⟨by decide, by decide, by decide⟩,
   (C2_needsSteppingStone_raw_version { defaultDevice with
        model := "SHSW-25", firmwareVersion := "1.0.0", generation := 1 }).2.2.2 rfl⟩

/-! ## C7, C10: CIDR expansion -/

theorem land_cidrMask (x p : Nat) (hx : x < 2 ^ 32) (hp : p ≤ 32) :
    x &&& cidrMask p = 2 ^ (32 - p) * (x / 2 ^ (32 - p)) := by
  have hmx : cidrMask p = 2 ^ (32 - p) * (2 ^ p - 1) := by
    unfold cidrMask
    rw [Nat.mul_sub, Nat.mul_one, ← pow_add]
    have : 32 - p + p = 32 := by omega
    rw [this]
  apply Nat.eq_of_testBit_eq
  intro i
  rw [Nat.testBit_and, hmx, Nat.testBit_mul_pow_two, Nat.testBit_mul_pow_two,
    Nat.testBit_two_pow_sub_one, ← Nat.shiftRight_eq_div_pow, Nat.testBit_shiftRight]
  by_cases hik : 32 - p ≤ i
  · by_cases hi32 : i < 32
    · have h1 : i - (32 - p) < p := by omega
      have h2 : 32 - p + (i - (32 - p)) = i := by omega
      simp [hik, h1, h2]
    · have h1 : ¬(i - (32 - p) < p) := by omega
      have h2 : x.testBit i = false := Nat.testBit_lt_two_pow (by
        calc x < 2 ^ 32 := hx
        _ ≤ 2 ^ i := Nat.pow_le_pow_right (by omega) (by omega))
      have h3 : 32 - p + (i - (32 - p)) = i := by omega
      simp [hik, h1, h2, h3]
  · simp [hik]

theorem contains_iff (x p q : Nat) (hx : x < 2 ^ 32) (hp : p ≤ 32) :
    (x &&& cidrMask p = 2 ^ (32 - p) * q) ↔ x / 2 ^ (32 - p) = q := by
  rw [land_cidrMask x p hx hp]
  constructor
  · intro h
    exact Nat.eq_of_mul_eq_mul_left (Nat.two_pow_pos (32 - p)) h
  · intro h
    rw [h]

theorem expandLoop_exit (p q x f broadcast : Nat) (hp : p ≤ 32) (hx : x < 2 ^ 32)
    (hne : x / 2 ^ (32 - p) ≠ q) :
    expandLoop (2 ^ (32 - p) * q) broadcast (cidrMask p) (f + 1) x = some [] := by
  unfold expandLoop
  rw [if_neg]
  intro h
  exact hne ((contains_iff x p q hx hp).mp h)

theorem expandLoop_run (p q : Nat) (hp1 : 1 ≤ p) (hp : p ≤ 31) (hq : q < 2 ^ p) :
    ∀ j, 1 ≤ j → j ≤ 2 ^ (32 - p) - 1 → ∀ f, j + 1 ≤ f →
    expandLoop (2 ^ (32 - p) * q) (2 ^ (32 - p) * q + (2 ^ (32 - p) - 1)) (cidrMask p) f
      (2 ^ (32 - p) * q + (2 ^ (32 - p) - j))
      = some (List.range' (2 ^ (32 - p) * q + (2 ^ (32 - p) - j)) (j - 1)) := by
  have hb2 : 2 ≤ 2 ^ (32 - p) := by
    calc (2:Nat) = 2 ^ 1 := by norm_num
    _ ≤ 2 ^ (32 - p) := Nat.pow_le_pow_right (by omega) (by omega)
  have hblock : 2 ^ (32 - p) * (q + 1) ≤ 2 ^ 32 := by
    calc 2 ^ (32 - p) * (q + 1) ≤ 2 ^ (32 - p) * 2 ^ p :=
      Nat.mul_le_mul_left _ (by omega)
    _ = 2 ^ 32 := by rw [← pow_add]; congr 1; omega
  have hsplit : 2 ^ (32 - p) * (q + 1) = 2 ^ (32 - p) * q + 2 ^ (32 - p) := by ring
  intro j
  induction j with
  | zero => omega
  | succ n ih =>
    intro h1 hj f hf
    obtain ⟨f', rfl⟩ : ∃ f', f = f' + 1 := ⟨f - 1, by omega⟩
    have hcand_lt : 2 ^ (32 - p) * q + (2 ^ (32 - p) - (n + 1)) < 2 ^ 32 := by omega
    have hcontains : (2 ^ (32 - p) * q + (2 ^ (32 - p) - (n + 1))) &&& cidrMask p
        = 2 ^ (32 - p) * q := by
      rw [contains_iff _ p q hcand_lt (by omega)]
      rw [Nat.mul_add_div (Nat.two_pow_pos _)]
      have : (2 ^ (32 - p) - (n + 1)) / 2 ^ (32 - p) = 0 :=
        Nat.div_eq_of_lt (by omega)
      omega
    unfold expandLoop
    rw [if_pos hcontains]
    cases n with
    | zero =>
      have hnext : (2 ^ (32 - p) * q + (2 ^ (32 - p) - 1) + 1) % 2 ^ 32
          = (2 ^ (32 - p) * (q + 1)) % 2 ^ 32 := by
        congr 1
        omega
      obtain ⟨f'', rfl⟩ : ∃ f'', f' = f'' + 1 := ⟨f' - 1, by omega⟩
      rcases Nat.lt_or_ge (2 ^ (32 - p) * (q + 1)) (2 ^ 32) with hlt | hge
      · rw [hnext, Nat.mod_eq_of_lt hlt,
          expandLoop_exit p q _ f'' _ (by omega) hlt (by
            rw [Nat.mul_div_cancel_left _ (Nat.two_pow_pos _)]
            omega)]
        simp
      · have heq : 2 ^ (32 - p) * (q + 1) = 2 ^ 32 := by omega
        have hq1 : q ≠ 0 := by
          intro h0
          subst h0
          have hlt32 : 2 ^ (32 - p) < 2 ^ 32 :=
            Nat.pow_lt_pow_right (by omega) (by omega)
          omega
        rw [hnext, heq, Nat.mod_self,
          expandLoop_exit p q 0 f'' _ (by omega) (by positivity) (by
            rw [Nat.zero_div]
            omega)]
        simp
    | succ m =>
      have hne_network : 2 ^ (32 - p) * q + (2 ^ (32 - p) - (m + 2)) ≠ 2 ^ (32 - p) * q := by
        omega
      have hne_broadcast : 2 ^ (32 - p) * q + (2 ^ (32 - p) - (m + 2))
          ≠ 2 ^ (32 - p) * q + (2 ^ (32 - p) - 1) := by
        omega
      have hnext : (2 ^ (32 - p) * q + (2 ^ (32 - p) - (m + 2)) + 1) % 2 ^ 32
          = 2 ^ (32 - p) * q + (2 ^ (32 - p) - (m + 1)) := by
        rw [Nat.mod_eq_of_lt (by omega)]
        omega
      have harg : 2 ^ (32 - p) * q + (2 ^ (32 - p) - (m + 1)) =
          (2 ^ (32 - p) * q + (2 ^ (32 - p) - (m + 1 + 1))) + 1 := by omega
      rw [hnext, ih (by omega) (by omega) f' (by omega), Option.map_some',
        if_neg (by rintro (h | h); exact hne_network h; exact hne_broadcast h)]
      rw [show m + 1 - 1 = m from rfl, show m + 1 + 1 - 1 = m + 1 from rfl,
        harg, List.range'_succ]

theorem parseOctet_le (cs : List Char) (x : Nat) (h : parseOctet cs = some x) : x ≤ 255 := by
  unfold parseOctet at h
  split_ifs at h with h1 h2 h3 h4
  simp at h
  omega

theorem parsePrefixLen_le (cs : List Char) (p : Nat) (h : parsePrefixLen cs = some p) :
    p ≤ 32 := by
  unfold parsePrefixLen at h
  split_ifs at h with h1 h2 h3
  simp at h
  omega

theorem parseIPv4_lt (cs : List Char) (ip : Nat) (h : parseIPv4 cs = some ip) :
    ip < 2 ^ 32 := by
  unfold parseIPv4 at h
  split at h
  case h_2 => simp at h
  case h_1 a b c d hsp =>
    split at h
    case h_2 => simp at h
    case h_1 x y z w hx hy hz hw =>
      rw [Option.some_inj] at h
      have := parseOctet_le a x hx
      have := parseOctet_le b y hy
      have := parseOctet_le c z hz
      have := parseOctet_le d w hw
      have hbound : ((x * 256 + y) * 256 + z) * 256 + w
          ≤ ((255 * 256 + 255) * 256 + 255) * 256 + 255 := by
        nlinarith
      omega

theorem parseCIDRv4_sound (s : String) (ip p : Nat)
    (h : parseCIDRv4 s = some (ip, p)) : ip < 2 ^ 32 ∧ p ≤ 32 := by
  unfold parseCIDRv4 at h
  split at h
  case h_2 => simp at h
  case h_1 addr maskStr hsp =>
    split at h
    case h_2 => simp at h
    case h_1 x pl hx hpl =>
      rw [Option.some_inj, Prod.mk.injEq] at h
      obtain ⟨rfl, rfl⟩ := h
      exact ⟨parseIPv4_lt addr x hx, parsePrefixLen_le maskStr pl hpl⟩

theorem expandLoop_succ (network broadcast mask f c : Nat) :
    expandLoop network broadcast mask (f + 1) c =
      if c &&& mask = network then
        (expandLoop network broadcast mask f ((c + 1) % 2 ^ 32)).map
          (fun rest => if c = network ∨ c = broadcast then rest else c :: rest)
      else some [] := rfl

theorem expandCIDR_parsed (s : String) (ip p : Nat)
    (hparse : parseCIDRv4 s = some (ip, p)) (hp1 : 1 ≤ p) (hp : p ≤ 31) :
    expandCIDR s =
      some (Except.ok
        (List.range' (2 ^ (32 - p) * (ip / 2 ^ (32 - p)) + 1) (2 ^ (32 - p) - 2))) := by
  obtain ⟨hip, hp32⟩ := parseCIDRv4_sound s ip p hparse
  have hb2 : 2 ≤ 2 ^ (32 - p) := by
    calc (2:Nat) = 2 ^ 1 := by norm_num
    _ ≤ 2 ^ (32 - p) := Nat.pow_le_pow_right (by omega) (by omega)
  have hbtop : 2 ^ (32 - p) ≤ 2 ^ 31 := Nat.pow_le_pow_right (by omega) (by omega)
  have h31 : (2:Nat) ^ 31 < 2 ^ 32 := by norm_num
  have hq : ip / 2 ^ (32 - p) < 2 ^ p := by
    rw [Nat.div_lt_iff_lt_mul (Nat.two_pow_pos _)]
    calc ip < 2 ^ 32 := hip
    _ = 2 ^ p * 2 ^ (32 - p) := by rw [← pow_add]; congr 1; omega
  have hsplit : 2 ^ (32 - p) * (ip / 2 ^ (32 - p) + 1) =
      2 ^ (32 - p) * (ip / 2 ^ (32 - p)) + 2 ^ (32 - p) := by ring
  have hblock : 2 ^ (32 - p) * (ip / 2 ^ (32 - p) + 1) ≤ 2 ^ 32 := by
    calc 2 ^ (32 - p) * (ip / 2 ^ (32 - p) + 1) ≤ 2 ^ (32 - p) * 2 ^ p :=
      Nat.mul_le_mul_left _ (by omega)
    _ = 2 ^ 32 := by rw [← pow_add]; congr 1; omega
  have hnet : ip &&& cidrMask p = 2 ^ (32 - p) * (ip / 2 ^ (32 - p)) :=
    land_cidrMask ip p hip (by omega)
  have hcompl : 2 ^ 32 - 1 - cidrMask p = 2 ^ (32 - p) - 1 := by
    unfold cidrMask
    have : (2:Nat) ^ (32 - p) ≤ 2 ^ 32 := Nat.pow_le_pow_right (by omega) (by omega)
    omega
  have hbr : 2 ^ (32 - p) * (ip / 2 ^ (32 - p)) ||| (2 ^ (32 - p) - 1) =
      2 ^ (32 - p) * (ip / 2 ^ (32 - p)) + (2 ^ (32 - p) - 1) :=
    (Nat.mul_add_lt_is_or (by omega) _).symm
  have hnet_lt : 2 ^ (32 - p) * (ip / 2 ^ (32 - p)) < 2 ^ 32 := by omega
  have hcontains : (2 ^ (32 - p) * (ip / 2 ^ (32 - p))) &&& cidrMask p
      = 2 ^ (32 - p) * (ip / 2 ^ (32 - p)) := by
    rw [contains_iff _ p _ hnet_lt (by omega), Nat.mul_div_cancel_left _ (Nat.two_pow_pos _)]
  have hnext : (2 ^ (32 - p) * (ip / 2 ^ (32 - p)) + 1) % 2 ^ 32
      = 2 ^ (32 - p) * (ip / 2 ^ (32 - p)) + 1 := Nat.mod_eq_of_lt (by omega)
  unfold expandCIDR
  rw [hparse]
  dsimp only
  rw [hnet, hcompl, hbr]
  rw [show loopFuel = 2 ^ 32 + 1 from rfl, expandLoop_succ, if_pos hcontains, hnext]
  have hrun := expandLoop_run p (ip / 2 ^ (32 - p)) hp1 hp hq (2 ^ (32 - p) - 1)
    (by omega) (by omega) (2 ^ 32) (by omega)
  rw [show 2 ^ (32 - p) * (ip / 2 ^ (32 - p)) + 1
      = 2 ^ (32 - p) * (ip / 2 ^ (32 - p)) + (2 ^ (32 - p) - (2 ^ (32 - p) - 1)) by omega,
    hrun]
  rw [Option.map_some', if_pos (Or.inl rfl), Option.map_some']
  rw [show 2 ^ (32 - p) - (2 ^ (32 - p) - 1) = 1 by omega,
    show 2 ^ (32 - p) - 1 - 1 = 2 ^ (32 - p) - 2 by omega]

theorem expandLoop_exit_any (network broadcast mask x f : Nat) (hf : 1 ≤ f)
    (h : ¬ x &&& mask = network) :
    expandLoop network broadcast mask f x = some [] := by
  obtain ⟨f', rfl⟩ : ∃ f', f = f' + 1 := ⟨f - 1, by omega⟩
  rw [expandLoop_succ, if_neg h]

theorem expandCIDR_parsed_32 (s : String) (ip : Nat)
    (hparse : parseCIDRv4 s = some (ip, 32)) :
    expandCIDR s = some (Except.ok []) := by
  obtain ⟨hip, -⟩ := parseCIDRv4_sound s ip 32 hparse
  have hand : ∀ y, y < 2 ^ 32 → y &&& cidrMask 32 = y := by
    intro y hy
    rw [land_cidrMask y 32 hy (le_refl 32)]
    simp
  have hnet : ip &&& cidrMask 32 = ip := hand ip hip
  have hcompl : 2 ^ 32 - 1 - cidrMask 32 = 0 := by
    unfold cidrMask
    norm_num
  unfold expandCIDR
  rw [hparse]
  dsimp only
  rw [hnet, hcompl, Nat.or_zero]
  rw [show loopFuel = 2 ^ 32 + 1 from rfl, expandLoop_succ, if_pos hnet]
  rcases Nat.lt_or_ge (ip + 1) (2 ^ 32) with hlt | hge
  · rw [Nat.mod_eq_of_lt hlt,
      expandLoop_exit_any ip ip (cidrMask 32) (ip + 1) (2 ^ 32) (Nat.one_le_two_pow)
        (by rw [hand _ hlt]; omega)]
    simp
  · have heq : ip + 1 = 2 ^ 32 := by omega
    rw [heq, Nat.mod_self,
      expandLoop_exit_any ip ip (cidrMask 32) 0 (2 ^ 32) (Nat.one_le_two_pow)
        (by rw [hand 0 (Nat.two_pow_pos 32)]; omega)]
    simp

theorem expandLoop_mask_zero (broadcast : Nat) :
    ∀ f c, expandLoop 0 broadcast 0 f c = none := by
  intro f
  induction f with
  | zero => intro c; rfl
  | succ n ih =>
    intro c
    rw [expandLoop_succ, if_pos (by simp), ih, Option.map_none']

theorem C7_expandCIDR_counterexample :
    parseCIDRv4 "0.0.0.0/0" = some (0, 0) ∧ 0 ≤ 30 ∧ expandCIDR "0.0.0.0/0" = none := by
  refine ⟨by decide, by decide, ?_⟩
  have hp : parseCIDRv4 "0.0.0.0/0" = some (0, 0) := by decide
  unfold expandCIDR
  rw [hp]
  dsimp only
  have hm : cidrMask 0 = 0 := by
    unfold cidrMask
    norm_num
  rw [hm, show (0 &&& 0 : Nat) = 0 from rfl, expandLoop_mask_zero, Option.map_none']

theorem C7_expandCIDR_host_count (s : String) :
    (∀ ip p, parseCIDRv4 s = some (ip, p) → 1 ≤ p → p ≤ 30 →
      ∃ l, expandCIDR s = some (Except.ok l)
        ∧ l = List.range' (2 ^ (32 - p) * (ip / 2 ^ (32 - p)) + 1) (2 ^ (32 - p) - 2)
        ∧ l.length = 2 ^ (32 - p) - 2)
    ∧ (parseCIDRv4 s = none → ∃ e, expandCIDR s = some (Except.error e)) := by
  constructor
  · intro ip p hparse hp1 hp30
    refine ⟨_, expandCIDR_parsed s ip p hparse hp1 (by omega), rfl, ?_⟩
    simp
  · intro hnone
    unfold expandCIDR
    rw [hnone]
    exact ⟨_, rfl⟩

theorem C7_expandCIDR_host_count_witness :
    (∃ l, expandCIDR "10.0.0.0/30" = some (Except.ok l)
      ∧ l = List.range' (2 ^ (32 - 30) * (167772160 / 2 ^ (32 - 30)) + 1) (2 ^ (32 - 30) - 2)
      ∧ l.length = 2 ^ (32 - 30) - 2)
    ∧ (∃ e, expandCIDR "not-a-cidr" = some (Except.error e)) :=
  ⟨(C7_expandCIDR_host_count "10.0.0.0/30").1 167772160 30 (by decide) (by decide) (by decide),
   (C7_expandCIDR_host_count "not-a-cidr").2 (by decide)⟩

theorem C10_expandCIDR_31_32 (s : String) (ip p : Nat)
    (hparse : parseCIDRv4 s = some (ip, p)) (hp : p = 31 ∨ p = 32) :
    expandCIDR s = some (Except.ok []) := by
  rcases hp with rfl | rfl
  · rw [expandCIDR_parsed s ip 31 hparse (by omega) (by omega)]
    norm_num
  · exact expandCIDR_parsed_32 s ip hparse

theorem C10_expandCIDR_31_32_witness :
    expandCIDR "10.0.0.0/31" = some (Except.ok [])
    ∧ expandCIDR "10.0.0.5/32" = some (Except.ok []) :=
  ⟨C10_expandCIDR_31_32 "10.0.0.0/31" 167772160 31 (by decide) (Or.inl rfl),
   C10_expandCIDR_31_32 "10.0.0.5/32" 167772165 32 (by decide) (Or.inr rfl)⟩

/-! ## C3, C4, C9: the catalog client -/

theorem downloadFirmware_hit (env : Env) (c : APIClient) (fw : RemoteFirmware)
    (beta : Bool) (dir path : String)
    (h : c.firmwareCache.lookup (firmwareID fw beta) = some path) :
    downloadFirmware env c fw beta dir = (c, Except.ok path, 0) := by
  unfold downloadFirmware
  rw [h]

theorem downloadFirmware_miss_ok (env : Env) (c : APIClient) (fw : RemoteFirmware)
    (beta : Bool) (dir : String)
    (hmiss : c.firmwareCache.lookup (firmwareID fw beta) = none)
    (hnet : env.httpGet (firmwareURL fw beta) = true) :
    downloadFirmware env c fw beta dir =
      ({ c with firmwareCache :=
          (firmwareID fw beta, joinPath dir (downloadFilename fw beta)) :: c.firmwareCache },
       Except.ok (joinPath dir (downloadFilename fw beta)), 1) := by
  unfold downloadFirmware
  rw [hmiss, if_pos hnet]

theorem downloadCalls_hit (env : Env) (fw : RemoteFirmware) (beta : Bool) (dir path : String) :
    ∀ m (c : APIClient), c.firmwareCache.lookup (firmwareID fw beta) = some path →
    downloadCalls env fw beta dir m c = (c, List.replicate m (Except.ok path), 0) := by
  intro m
  induction m with
  | zero => intro c h; rfl
  | succ n ih =>
    intro c h
    unfold downloadCalls
    rw [downloadFirmware_hit env c fw beta dir path h]
    dsimp only
    rw [ih c h]
    simp [List.replicate_succ]

/-- **C3.** For every firmware descriptor, channel and directory,
calling `DownloadFirmware` N ≥ 1 times from a state whose download cache
has no entry for the firmware ID performs exactly one HTTP GET in total
(assuming that GET succeeds) and every call returns the same local path:
downloads are keyed by the firmware ID `{model}-{version}@{channel}`. -/
theorem C3_downloadFirmware_once (env : Env) (fw : RemoteFirmware) (beta : Bool)
    (dir : String) (n : Nat) (c₀ : APIClient)
    (hmiss : c₀.firmwareCache.lookup (firmwareID fw beta) = none)
    (hnet : env.httpGet (firmwareURL fw beta) = true)
    (hn : 1 ≤ n) :
    ∃ path, (downloadCalls env fw beta dir n c₀).2.2 = 1
      ∧ (downloadCalls env fw beta dir n c₀).2.1 ≠ []
      ∧ ∀ r ∈ (downloadCalls env fw beta dir n c₀).2.1, r = Except.ok path := by
  obtain ⟨m, rfl⟩ : ∃ m, n = m + 1 := ⟨n - 1, by omega⟩
  refine ⟨joinPath dir (downloadFilename fw beta), ?_⟩
  unfold downloadCalls
  rw [downloadFirmware_miss_ok env c₀ fw beta dir hmiss hnet]
  dsimp only
  rw [downloadCalls_hit env fw beta dir (joinPath dir (downloadFilename fw beta)) m _ (by
    simp [List.lookup])]
  refine ⟨rfl, by simp, ?_⟩
  intro r hr
  rcases List.mem_cons.mp hr with rfl | hr
  · rfl
  · exact List.eq_of_mem_replicate hr

/-- **C3 witness.** -/
theorem C3_downloadFirmware_once_witness :
    ∃ path,
      (downloadCalls
        { httpGet := fun _ => true, remoteCatalog := [], discoveries := fun _ => [],
          globMatch := fun _ _ => false, chooseBeta := fun _ => false,
          confirm := fun _ => true }
        (ssEntry "Plus1" "Plus1" "abc") false "dl" 3
        { firmwares := [], firmwareCache := [] }).2.2 = 1
      ∧ (downloadCalls
        { httpGet := fun _ => true, remoteCatalog := [], discoveries := fun _ => [],
          globMatch := fun _ _ => false, chooseBeta := fun _ => false,
          confirm := fun _ => true }
        (ssEntry "Plus1" "Plus1" "abc") false "dl" 3
        { firmwares := [], firmwareCache := [] }).2.1 ≠ []
      ∧ ∀ r ∈ (downloadCalls
        { httpGet := fun _ => true, remoteCatalog := [], discoveries := fun _ => [],
          globMatch := fun _ _ => false, chooseBeta := fun _ => false,
          confirm := fun _ => true }
        (ssEntry "Plus1" "Plus1" "abc") false "dl" 3
        { firmwares := [], firmwareCache := [] }).2.1, r = Except.ok path :=
  C3_downloadFirmware_once _ _ false "dl" 3 _ rfl rfl (by omega)

/-- **C9.** After a successful `DownloadFirmware(fw, beta, dir1)`, a
subsequent call with a different download directory `dir2` returns the
cached path (which lives inside `dir1`), performs no HTTP GET and leaves
the client state unchanged: the directory argument is ignored on a cache
hit. -/
theorem C9_downloadFirmware_dir_ignored (env : Env) (fw : RemoteFirmware) (beta : Bool)
    (dir1 dir2 : String) (c₀ : APIClient)
    (hmiss : c₀.firmwareCache.lookup (firmwareID fw beta) = none)
    (hnet : env.httpGet (firmwareURL fw beta) = true) :
    (downloadFirmware env c₀ fw beta dir1).2.1
        = Except.ok (joinPath dir1 (downloadFilename fw beta))
    ∧ (downloadFirmware env (downloadFirmware env c₀ fw beta dir1).1 fw beta dir2)
        = ((downloadFirmware env c₀ fw beta dir1).1,
           Except.ok (joinPath dir1 (downloadFilename fw beta)), 0) := by
  rw [downloadFirmware_miss_ok env c₀ fw beta dir1 hmiss hnet]
  exact ⟨rfl, downloadFirmware_hit env _ fw beta dir2 _ (by simp [List.lookup])⟩

/-- **C9 witness.** -/
theorem C9_downloadFirmware_dir_ignored_witness :
    (downloadFirmware
        { httpGet := fun _ => true, remoteCatalog := [], discoveries := fun _ => [],
          globMatch := fun _ _ => false, chooseBeta := fun _ => false,
          confirm := fun _ => true }
        { firmwares := [], firmwareCache := [] }
        (ssEntry "Plus1" "Plus1" "abc") false "dirOne").2.1
      = Except.ok (joinPath "dirOne" (downloadFilename (ssEntry "Plus1" "Plus1" "abc") false))
    ∧ (downloadFirmware
        { httpGet := fun _ => true, remoteCatalog := [], discoveries := fun _ => [],
          globMatch := fun _ _ => false, chooseBeta := fun _ => false,
          confirm := fun _ => true }
        (downloadFirmware
          { httpGet := fun _ => true, remoteCatalog := [], discoveries := fun _ => [],
            globMatch := fun _ _ => false, chooseBeta := fun _ => false,
            confirm := fun _ => true }
          { firmwares := [], firmwareCache := [] }
          (ssEntry "Plus1" "Plus1" "abc") false "dirOne").1
        (ssEntry "Plus1" "Plus1" "abc") false "dirTwo")
      = ((downloadFirmware
          { httpGet := fun _ => true, remoteCatalog := [], discoveries := fun _ => [],
            globMatch := fun _ _ => false, chooseBeta := fun _ => false,
            confirm := fun _ => true }
          { firmwares := [], firmwareCache := [] }
          (ssEntry "Plus1" "Plus1" "abc") false "dirOne").1,
         Except.ok (joinPath "dirOne" (downloadFilename (ssEntry "Plus1" "Plus1" "abc") false)), 0) :=
  C9_downloadFirmware_dir_ignored _ _ false "dirOne" "dirTwo" _ rfl rfl

theorem lookupByAPIName_none_iff (firmwares : List (String × RemoteFirmware)) (model : String) :
    ∀ l : List (String × String),
      (lookupByAPIName firmwares model l = none ↔
        ∀ internal api, (internal, api) ∈ l → api = model → firmwares.lookup internal = none) := by
  intro l
  induction l with
  | nil => simp [lookupByAPIName]
  | cons pair rest ih =>
    obtain ⟨internal, api⟩ := pair
    unfold lookupByAPIName
    by_cases hapi : api = model
    · rw [if_pos hapi]
      cases hf : firmwares.lookup internal with
      | some fw =>
        constructor
        · intro h
          exact absurd h (by simp)
        · intro hall
          have := hall internal api (List.mem_cons_self _ _) hapi
          rw [hf] at this
          exact this
      | none =>
        rw [ih]
        constructor
        · intro hall internal2 api2 hmem happ
          rcases List.mem_cons.mp hmem with heq | hmem2
          · simp only [Prod.mk.injEq] at heq
            obtain ⟨rfl, rfl⟩ := heq
            exact hf
          · exact hall internal2 api2 hmem2 happ
        · intro hall internal2 api2 hmem happ
          exact hall internal2 api2 (List.mem_cons_of_mem _ hmem) happ
    · rw [if_neg hapi, ih]
      constructor
      · intro hall internal2 api2 hmem happ
        rcases List.mem_cons.mp hmem with heq | hmem2
        · simp only [Prod.mk.injEq] at heq
          obtain ⟨rfl, rfl⟩ := heq
          exact absurd happ hapi
        · exact hall internal2 api2 hmem2 happ
      · intro hall internal2 api2 hmem happ
        exact hall internal2 api2 (List.mem_cons_of_mem _ hmem) happ

theorem gl_direct (C : List (String × RemoteFirmware)) (M : String) (fw : RemoteFirmware)
    (hdir : C.lookup M = some fw) : getLatestFirmwareFrom C M = Except.ok fw := by
  simp only [getLatestFirmwareFrom, hdir]

theorem gl_alias (C : List (String × RemoteFirmware)) (M can : String) (fw : RemoteFirmware)
    (hdir : C.lookup M = none) (ha : gen2PlusDeviceAliases.lookup M = some can)
    (hc : C.lookup can = some fw) : getLatestFirmwareFrom C M = Except.ok fw := by
  simp only [getLatestFirmwareFrom, hdir, ha, hc]

theorem gl_rev_a (C : List (String × RemoteFirmware)) (M can : String) (fw : RemoteFirmware)
    (hdir : C.lookup M = none) (ha : gen2PlusDeviceAliases.lookup M = some can)
    (hc : C.lookup can = none) (hr : lookupByAPIName C M gen2PlusAPINames = some fw) :
    getLatestFirmwareFrom C M = Except.ok fw := by
  simp only [getLatestFirmwareFrom, hdir, ha, hc, hr]

theorem gl_rev_b (C : List (String × RemoteFirmware)) (M : String) (fw : RemoteFirmware)
    (hdir : C.lookup M = none) (ha : gen2PlusDeviceAliases.lookup M = none)
    (hr : lookupByAPIName C M gen2PlusAPINames = some fw) :
    getLatestFirmwareFrom C M = Except.ok fw := by
  simp only [getLatestFirmwareFrom, hdir, ha, hr]

theorem gl_err_a (C : List (String × RemoteFirmware)) (M can : String)
    (hdir : C.lookup M = none) (ha : gen2PlusDeviceAliases.lookup M = some can)
    (hc : C.lookup can = none) (hr : lookupByAPIName C M gen2PlusAPINames = none) :
    getLatestFirmwareFrom C M
      = Except.error ("remote firmware for model " ++ M ++ " not found") := by
  simp only [getLatestFirmwareFrom, hdir, ha, hc, hr]

theorem gl_err_b (C : List (String × RemoteFirmware)) (M : String)
    (hdir : C.lookup M = none) (ha : gen2PlusDeviceAliases.lookup M = none)
    (hr : lookupByAPIName C M gen2PlusAPINames = none) :
    getLatestFirmwareFrom C M
      = Except.error ("remote firmware for model " ++ M ++ " not found") := by
  simp only [getLatestFirmwareFrom, hdir, ha, hr]

/-- **C4.** With the catalog `C` fetched (non-empty cache),
`GetLatestFirmwareAvailable(M)` returns exactly `C[M]` when `M` is in
`C`; it fails with the firmware-not-found error exactly when the direct
lookup, the device-alias lookup and the reverse API-name lookup all
miss. -/
theorem C4_getLatestFirmwareAvailable (env : Env) (c : APIClient)
    (C : List (String × RemoteFirmware)) (M : String)
    (hC : c.firmwares = C) (hne : C ≠ []) :
    (∀ fw, C.lookup M = some fw → (getLatestFirmwareAvailable env c M).2 = Except.ok fw)
    ∧ ((getLatestFirmwareAvailable env c M).2
          = Except.error ("remote firmware for model " ++ M ++ " not found") ↔
        (C.lookup M = none
         ∧ (∀ canonical, gen2PlusDeviceAliases.lookup M = some canonical →
             C.lookup canonical = none)
         ∧ (∀ internal api, (internal, api) ∈ gen2PlusAPINames → api = M →
             C.lookup internal = none))) := by
  have hfetch : fetchVersions env c = (c, C) := by
    unfold fetchVersions
    rw [if_pos]
    · rw [hC]
    · rw [hC]
      cases C with
      | nil => exact absurd rfl hne
      | cons x xs => simp
  have hget : getLatestFirmwareAvailable env c M = (c, getLatestFirmwareFrom C M) := by
    unfold getLatestFirmwareAvailable
    rw [hfetch]
  rw [hget]
  refine ⟨fun fw hfw => gl_direct C M fw hfw, ?_⟩
  rcases hdir : C.lookup M with _ | fw
  case some =>
    rw [gl_direct C M fw hdir]
    refine iff_of_false (by simp) ?_
    rintro ⟨hnone, -, -⟩
    exact absurd hnone (by simp)
  case none =>
    rcases halias : gen2PlusDeviceAliases.lookup M with _ | canonical
    case some =>
      rcases hcan : C.lookup canonical with _ | fw
      case some =>
        rw [gl_alias C M canonical fw hdir halias hcan]
        refine iff_of_false (by simp) ?_
        rintro ⟨-, hall, -⟩
        have := hall canonical rfl
        rw [hcan] at this
        exact absurd this (by simp)
      case none =>
        rcases hrev : lookupByAPIName C M gen2PlusAPINames with _ | fw
        case some =>
          rw [gl_rev_a C M canonical fw hdir halias hcan hrev]
          refine iff_of_false (by simp) ?_
          rintro ⟨-, -, hall⟩
          have hnone := (lookupByAPIName_none_iff C M gen2PlusAPINames).mpr hall
          rw [hnone] at hrev
          exact absurd hrev (by simp)
        case none =>
          rw [gl_err_a C M canonical hdir halias hcan hrev]
          refine iff_of_true rfl
            ⟨rfl, ?_, (lookupByAPIName_none_iff C M gen2PlusAPINames).mp hrev⟩
          intro canonical2 hc2
          rw [Option.some_inj] at hc2
          subst hc2
          exact hcan
    case none =>
      rcases hrev : lookupByAPIName C M gen2PlusAPINames with _ | fw
      case some =>
        rw [gl_rev_b C M fw hdir halias hrev]
        refine iff_of_false (by simp) ?_
        rintro ⟨-, -, hall⟩
        have hnone := (lookupByAPIName_none_iff C M gen2PlusAPINames).mpr hall
        rw [hnone] at hrev
        exact absurd hrev (by simp)
      case none =>
        rw [gl_err_b C M hdir halias hrev]
        refine iff_of_true rfl
          ⟨rfl, ?_, (lookupByAPIName_none_iff C M gen2PlusAPINames).mp hrev⟩
        intro canonical2 hc2
        exact absurd hc2 (by simp)

/-- **C4 witness.** -/
theorem C4_getLatestFirmwareAvailable_witness :
    (getLatestFirmwareAvailable
        { httpGet := fun _ => true, remoteCatalog := [], discoveries := fun _ => [],
          globMatch := fun _ _ => false, chooseBeta := fun _ => false,
          confirm := fun _ => true }
        { firmwares := [("Plus1", ssEntry "Plus1" "Plus1" "abc")], firmwareCache := [] }
        "Plus1").2 = Except.ok (ssEntry "Plus1" "Plus1" "abc") :=
  (C4_getLatestFirmwareAvailable _ _ [("Plus1", ssEntry "Plus1" "Plus1" "abc")] "Plus1"
    rfl (by simp)).1 _ (by simp [List.lookup])

/-! ## C8: the OTA router; C1: the multi-pass upgrade loop -/

theorem splitOnCharAux_no_sep (sep : Char) :
    ∀ (cs acc : List Char), cs.contains sep = false →
      splitOnCharAux sep cs acc = [acc.reverse ++ cs] := by
  intro cs
  induction cs with
  | nil => intro acc _; simp [splitOnCharAux]
  | cons c rest ih =>
    intro acc hc
    have hcne : ¬ c = sep := by
      intro h
      subst h
      simp [List.contains_cons] at hc
    have hrest : rest.contains sep = false := by
      simp [List.contains_cons] at hc
      simp [hc.2]
    unfold splitOnCharAux
    rw [if_neg hcne, ih (c :: acc) hrest]
    simp

/-- **C8 counterexample.** A request for `/x/y` whose last segment `y`
has a handler installed is answered 404: the router keys on the whole
path after the leading slash (`x/y`), not on the last segment. -/
theorem C8_router_counterexample :
    lastSegment "/x/y" = "y"
    ∧ ([("y", "fw.zip")] : List (String × String)).lookup (lastSegment "/x/y")
        = some "fw.zip"
    ∧ routerRespond [("y", "fw.zip")] "/x/y" = RouterResult.notFound := by
  refine ⟨rfl, rfl, rfl⟩

/-- **C8 (amended).** For every incoming request, the router looks up
the request path with its first character (the leading slash) removed —
the entire remainder, not the last segment — in the per-device handler
map, invokes the stored handler on a hit and responds 404 on a miss.
For single-segment paths `/{id}` (the form the OTA server itself
advertises) the key coincides with the last path segment. -/
theorem C8_router_strips_leading_char (handlers : List (String × String))
    (path id : String) :
    (∀ h, handlers.lookup (String.mk (path.toList.drop 1)) = some h →
        routerRespond handlers path = RouterResult.served h)
    ∧ (handlers.lookup (String.mk (path.toList.drop 1)) = none →
        routerRespond handlers path = RouterResult.notFound)
    ∧ (id.toList.contains '/' = false →
        String.mk (("/" ++ id).toList.drop 1) = id
        ∧ lastSegment ("/" ++ id) = id) := by
  refine ⟨?_, ?_, ?_⟩
  · intro h hh
    unfold routerRespond
    dsimp only
    rw [hh]
  · intro hn
    unfold routerRespond
    dsimp only
    rw [hn]
  · intro hid
    have htl : ("/" ++ id).toList = '/' :: id.toList := by
      cases id with
      | mk data => rfl
    constructor
    · rw [htl]
      cases id with
      | mk data => rfl
    · unfold lastSegment
      rw [htl]
      unfold splitOnChar
      unfold splitOnCharAux
      rw [if_pos rfl, splitOnCharAux_no_sep '/' id.toList [] hid]
      cases id with
      | mk data => simp

/-- **C8 (amended) witness.** -/
theorem C8_router_strips_leading_char_witness :
    routerRespond [("dev1", "fw.zip")] "/dev1" = RouterResult.served "fw.zip"
    ∧ routerRespond [("dev1", "fw.zip")] "/other" = RouterResult.notFound
    ∧ (String.mk (("/" ++ "dev1").toList.drop 1) = "dev1"
       ∧ lastSegment ("/" ++ "dev1") = "dev1") :=
  ⟨(C8_router_strips_leading_char [("dev1", "fw.zip")] "/dev1" "dev1").1 _ rfl,
   (C8_router_strips_leading_char [("dev1", "fw.zip")] "/other" "dev1").2.1 rfl,
   (C8_router_strips_leading_char [("dev1", "fw.zip")] "/dev1" "dev1").2.2 rfl⟩

theorem fetchVersions_cached (env : Env) (c : APIClient) (h : c.firmwares ≠ []) :
    fetchVersions env c = (c, c.firmwares) := by
  unfold fetchVersions
  rw [if_pos]
  exact List.length_pos.mpr h

theorem getLatestFirmwareAvailable_cached (env : Env) (c : APIClient) (m : String)
    (h : c.firmwares ≠ []) :
    getLatestFirmwareAvailable env c m = (c, getLatestFirmwareFrom c.firmwares m) := by
  unfold getLatestFirmwareAvailable
  rw [fetchVersions_cached env c h]

theorem refreshDevice_state (env : Env) (ib : Bool) (api : APIClient) (d : Device)
    (h : api.firmwares ≠ []) :
    (refreshDevice env ib api d).1 = api := by
  unfold refreshDevice
  rw [getLatestFirmwareAvailable_cached env api d.model h]
  cases getLatestFirmwareFrom api.firmwares d.model with
  | error e => rfl
  | ok remoteFirmware =>
    rcases hss : needsSteppingStone d with ⟨ss, b⟩
    cases b with
    | true => rfl
    | false =>
      dsimp only
      split_ifs <;> rfl

theorem refreshDevicesList_state (env : Env) (ib : Bool) :
    ∀ (l : List (String × Device)) (api : APIClient), api.firmwares ≠ [] →
      (refreshDevicesList env ib l api).1 = api := by
  intro l
  induction l with
  | nil => intro api _; rfl
  | cons entry rest ih =>
    intro api h
    obtain ⟨id, d⟩ := entry
    unfold refreshDevicesList
    dsimp only
    have h1 : (refreshDevice env ib api d).1 = api := refreshDevice_state env ib api d h
    rw [h1, ih api h]

theorem filterDevices_api (env : Env) (o : OTAService) :
    (filterDevices env o).api = o.api := by
  unfold filterDevices
  split_ifs <;> rfl

theorem refreshFirmwareTargets_fresh (env : Env) (s : OTAService)
    (hdev : s.devices = none) (hfw : s.api.firmwares ≠ []) :
    (refreshFirmwareTargets env s).api = s.api
    ∧ (refreshFirmwareTargets env s).discoverCount = s.discoverCount + 1
    ∧ (refreshFirmwareTargets env s).devices.isSome = true := by
  unfold refreshFirmwareTargets discoverDevices
  rw [hdev]
  dsimp only
  rw [refreshDevicesList_state env s.includeBetas _ s.api hfw]
  exact ⟨rfl, rfl, rfl⟩

/-- **C1 counterexample.** A concrete forced multi-pass run: the first
pass upgrades a `Plus1` to the stepping-stone firmware (the pass reports
a stepping-stone upgrade), yet the catalog cache is *not* cleared before
the next pass: at every point between the passes the client still holds
the original catalog `c1CatalogOld` (stable 1.5.0), not the catalog
`c1CatalogNew` (stable 1.6.0) that a fresh fetch would return, and the
recomputed target for the re-discovered device is 1.5.0.  Only the
discovery cache is cleared. -/
theorem C1_promptForUpgrades_counterexample :
    (upgradePass c1Env c1State).map (fun r => r.2) = Except.ok true
    ∧ (upgradePass c1Env c1State).map (fun r => r.1.api.firmwares) = Except.ok c1CatalogOld
    ∧ (upgradePass c1Env c1State).map (fun r => (resetDiscovery r.1).devices)
        = Except.ok none
    ∧ (upgradePass c1Env c1State).map
        (fun r => (refreshFirmwareTargets c1Env (resetDiscovery r.1)).api.firmwares)
        = Except.ok c1CatalogOld
    ∧ (upgradePass c1Env c1State).map
        (fun r => (filterDevices c1Env (refreshFirmwareTargets c1Env
            (resetDiscovery r.1))).api.firmwares)
        = Except.ok c1CatalogOld
    ∧ (upgradePass c1Env c1State).map
        (fun r => ((refreshFirmwareTargets c1Env (resetDiscovery r.1)).devices.getD
            []).lookup "shellyplus1-aabbcc" |>.map
              (fun d => d.firmwareNewestVersion.version))
        = Except.ok (some "1.5.0")
    ∧ c1Env.remoteCatalog = c1CatalogNew
    ∧ c1CatalogOld ≠ c1CatalogNew
    ∧ c1CatalogOld ≠ [] := by
  refine ⟨rfl, rfl, rfl, rfl, rfl, rfl, rfl, by decide, by decide⟩

theorem promptForUpgrades_succ (env : Env) (fuel : Nat) (o : OTAService) :
    promptForUpgrades env (fuel + 1) o =
      match upgradePass env o with
      | Except.error e => some (Except.error e)
      | Except.ok r =>
        if r.2 then
          promptForUpgrades env fuel
            (filterDevices env (refreshFirmwareTargets env (resetDiscovery r.1)))
        else some (Except.ok r.1) := rfl

/-- **C1 (amended).** In every multi-pass upgrade run: if a pass
performed a stepping-stone upgrade, then before the next pass the
discovery cache is cleared (`ResetDiscovery`), a fresh discovery is
performed and targets are recomputed (`refreshFirmwareTargets`), and
filters are re-applied (`FilterDevices`) — but the catalog cache is NOT
cleared: when non-empty it is carried over unchanged into the next pass.
If no device in the pass used a stepping-stone target, the loop stops
after that pass. -/
theorem C1_promptForUpgrades_loop (env : Env) (o o1 : OTAService) (fuel : Nat) (had : Bool)
    (hpass : upgradePass env o = Except.ok (o1, had)) :
    (had = true → o1.api.firmwares ≠ [] →
      ((resetDiscovery o1).devices = none
       ∧ (refreshFirmwareTargets env (resetDiscovery o1)).discoverCount
           = o1.discoverCount + 1
       ∧ (refreshFirmwareTargets env (resetDiscovery o1)).devices.isSome = true
       ∧ (filterDevices env (refreshFirmwareTargets env (resetDiscovery o1))).api.firmwares
           = o1.api.firmwares
       ∧ promptForUpgrades env (fuel + 1) o
           = promptForUpgrades env fuel
               (filterDevices env (refreshFirmwareTargets env (resetDiscovery o1)))))
    ∧ (had = false → promptForUpgrades env (fuel + 1) o = some (Except.ok o1)) := by
  constructor
  · intro htrue hfw
    subst htrue
    have hreset_dev : (resetDiscovery o1).devices = none := rfl
    have hreset_api : (resetDiscovery o1).api = o1.api := rfl
    have hreset_count : (resetDiscovery o1).discoverCount = o1.discoverCount := rfl
    have hfresh := refreshFirmwareTargets_fresh env (resetDiscovery o1) hreset_dev
      (by rw [hreset_api]; exact hfw)
    refine ⟨hreset_dev, by rw [hfresh.2.1, hreset_count], hfresh.2.2, ?_, ?_⟩
    · rw [filterDevices_api, hfresh.1, hreset_api]
    · rw [promptForUpgrades_succ, hpass]
      rfl
  · intro hfalse
    subst hfalse
    rw [promptForUpgrades_succ, hpass]
    rfl

/-- **C1 (amended) witness.** -/
theorem C1_promptForUpgrades_loop_witness :
    (resetDiscovery c1AfterPass).devices = none
    ∧ (refreshFirmwareTargets c1Env (resetDiscovery c1AfterPass)).discoverCount
        = c1AfterPass.discoverCount + 1
    ∧ (refreshFirmwareTargets c1Env (resetDiscovery c1AfterPass)).devices.isSome = true
    ∧ (filterDevices c1Env (refreshFirmwareTargets c1Env
        (resetDiscovery c1AfterPass))).api.firmwares = c1AfterPass.api.firmwares
    ∧ promptForUpgrades c1Env 2 c1State
        = promptForUpgrades c1Env 1
            (filterDevices c1Env (refreshFirmwareTargets c1Env (resetDiscovery c1AfterPass))) :=
  (C1_promptForUpgrades_loop c1Env c1State c1AfterPass 1 true rfl).1 rfl (by decide)

end Mota
